import Mathlib

/-!
Verification of the VMDK container-parsing layer: a shallow embedding of
`src/lib.rs` (binary extent-header decoder, descriptor extraction) and
`src/descriptor.rs` (descriptor text grammar) of the `vmdk` crate, with
theorems settling the specification claims.

Machine integers are modelled as `Nat` with explicit `% 2 ^ w` where the
source can overflow; byte streams are `List Nat` (each entry one byte);
Rust `&str` values are `List Char`; fallible code returns `Except Err`.
-/

/-- Shorthand: the character list underlying a string literal (Rust `&str`). -/
def str (s : String) : List Char := s.data

/-- `const EXTENT_MAGIC: u32 = 0x564d444b` from `src/lib.rs`. -/
def EXTENT_MAGIC : Nat := 0x564d444b

/-- `const EXTENT_VERSION: u32 = 1` from `src/lib.rs`. -/
def EXTENT_VERSION : Nat := 1

/-- `const SECTOR_SIZE: u64 = 512` from `src/lib.rs`. -/
def SECTOR_SIZE : Nat := 512

/-- `const CID_NOPARENT: u32 = 0xffffffff` from `src/descriptor.rs`. -/
def CID_NOPARENT : Nat := 0xffffffff

/-- The error outcomes of the library, one constructor per failure kind the
source can produce.  `parseError` embeds `VmdkError::ParseError`;
`invalidDisk` embeds `VmdkError::InvalidDisk` as referenced by
`descriptor.rs`; `intParse` embeds `core::num::ParseIntError` propagated by
`?`; `ioError` embeds `std::io::Error` (EOF / read failure); `utf8Error`
embeds `std::str::Utf8Error`; `tryFromInt` embeds `TryFromIntError` from the
`usize` conversion.  `panicked msg` embeds a run of the `panic` macro, i.e.
a process abort carrying the formatted message: it is NOT a recoverable
`Result::Err` value in the source. -/
inductive Err where
  | parseError
  | invalidDisk
  | intParse
  | ioError
  | utf8Error
  | tryFromInt
  | panicked (msg : List Char)
deriving DecidableEq

/-- Decidable equality of `Except` results, for evaluating the embedding on
concrete inputs. -/
instance {ε α : Type} [DecidableEq ε] [DecidableEq α] :
    DecidableEq (Except ε α) := fun a b =>
  match a, b with
  | .error e, .error f =>
      if h : e = f then isTrue (by rw [h])
      else isFalse (fun hh => by cases hh; exact h rfl)
  | .error _, .ok _ => isFalse (fun hh => by cases hh)
  | .ok _, .error _ => isFalse (fun hh => by cases hh)
  | .ok x, .ok y =>
      if h : x = y then isTrue (by rw [h])
      else isFalse (fun hh => by cases hh; exact h rfl)

/-- Newtype `struct SectorType(u64)` from `src/lib.rs`. -/
structure SectorType where
  val : Nat
deriving DecidableEq

/-- `struct ExtentHeader` from `src/lib.rs`, field for field. -/
structure ExtentHeader where
  magic_number : Nat
  version : Nat
  flags : Nat
  capacity : SectorType
  grain_size : SectorType
  desc_offset : SectorType
  desc_size : SectorType
  gtes_per_gt : Nat
  rgd_offset : SectorType
  gd_offset : SectorType
  overhead : SectorType
  dirty_shutdown : Nat
  single_eol_char : Nat
  non_eol_char : Nat
  dbl_eol_char : Nat
  compress_method : Nat
deriving DecidableEq

/-- Little-endian value of a byte list (first byte least significant),
the interpretation used by `byteorder::LittleEndian` reads. -/
def leVal (bs : List Nat) : Nat :=
  bs.foldr (fun b acc => b + 256 * acc) 0

/-- One `read_uXX::<LittleEndian>` / `read_u8` call on a byte stream:
consume `w` bytes and interpret them little-endian, or fail with an I/O
error (EOF) when fewer than `w` bytes remain. -/
def readU (w : Nat) (bs : List Nat) : Except Err (Nat × List Nat) :=
  if w ≤ bs.length then .ok (leVal (bs.take w), bs.drop w) else .error .ioError

/-- `ExtentHeader::new` from `src/lib.rs`: sequential little-endian field
reads with early `Err(VmdkError::ParseError)` returns on a bad magic or an
unsupported version.  Returns the header together with the unconsumed rest
of the stream. -/
def ExtentHeader.new (bs : List Nat) : Except Err (ExtentHeader × List Nat) := do
  let r0 ← readU 4 bs
  if r0.fst ≠ EXTENT_MAGIC then Except.error Err.parseError else do
  let r1 ← readU 4 r0.snd
  if r1.fst ≠ EXTENT_VERSION then Except.error Err.parseError else do
  let r2 ← readU 4 r1.snd
  let r3 ← readU 8 r2.snd
  let r4 ← readU 8 r3.snd
  let r5 ← readU 8 r4.snd
  let r6 ← readU 8 r5.snd
  let r7 ← readU 4 r6.snd
  let r8 ← readU 8 r7.snd
  let r9 ← readU 8 r8.snd
  let r10 ← readU 8 r9.snd
  let r11 ← readU 1 r10.snd
  let r12 ← readU 1 r11.snd
  let r13 ← readU 1 r12.snd
  let r14 ← readU 1 r13.snd
  let r15 ← readU 2 r14.snd
  Except.ok
    (⟨r0.fst, r1.fst, r2.fst, ⟨r3.fst⟩, ⟨r4.fst⟩, ⟨r5.fst⟩, ⟨r6.fst⟩,
      r7.fst, ⟨r8.fst⟩, ⟨r9.fst⟩, ⟨r10.fst⟩, r11.fst, r12.fst, r13.fst,
      r14.fst, r15.fst⟩, r15.snd)

/-- Worker for `rsplit`: Rust `str::split` with a string pattern, scanning
left to right and cutting at each non-overlapping occurrence of `sep`
(empty pieces are kept, exactly as Rust's `split` keeps them).  The `fuel`
argument only makes the recursion structural: every step consumes at least
one character, so starting it at the string's length (as `rsplit` does) the
`0` case is never reached on a non-empty string. -/
def rsplitGo (sep : List Char) : Nat → List Char → List Char → List (List Char)
  | _, [], acc => [acc.reverse]
  | fuel + 1, c :: rest, acc =>
    if sep.isPrefixOf (c :: rest) then
      acc.reverse :: rsplitGo sep fuel (rest.drop (sep.length - 1)) []
    else
      rsplitGo sep fuel rest (c :: acc)
  | 0, s, acc => [acc.reverse ++ s]

/-- Rust `str::split` with a (non-empty) string pattern, as used with the
patterns `"# "`, `"\n"` and `" "` in `src/descriptor.rs`. -/
def rsplit (sep s : List Char) : List (List Char) :=
  rsplitGo sep s.length s []

/-- Worker for `trimStartMatches`; as with `rsplitGo`, the `fuel` argument
only makes the recursion structural and is never exhausted when started at
the string's length. -/
def trimStartMatchesGo (pat : List Char) : Nat → List Char → List Char
  | 0, s => s
  | fuel + 1, s =>
    if pat ≠ [] ∧ pat.isPrefixOf s = true then
      trimStartMatchesGo pat fuel (s.drop pat.length)
    else
      s

/-- Rust `str::trim_start_matches` with a string pattern: repeatedly strip
the pattern from the front while it is a prefix. -/
def trimStartMatches (pat s : List Char) : List Char :=
  trimStartMatchesGo pat s.length s

/-- Rust `char::to_digit(radix)`: digit value of a character in the given
radix (`0`–`9`, then `a`–`z` / `A`–`Z` for values 10 and up). -/
def digitVal (radix : Nat) (c : Char) : Option Nat :=
  let v : Option Nat :=
    if '0' ≤ c ∧ c ≤ '9' then some (c.toNat - '0'.toNat)
    else if 'a' ≤ c ∧ c ≤ 'z' then some (c.toNat - 'a'.toNat + 10)
    else if 'A' ≤ c ∧ c ≤ 'Z' then some (c.toNat - 'A'.toNat + 10)
    else none
  match v with
  | some d => if d < radix then some d else none
  | none => none

/-- Accumulate decimal/hex digits left to right; any non-digit character is
an `InvalidDigit` parse error. -/
def parseDigits (radix : Nat) : List Char → Nat → Except Err Nat
  | [], acc => .ok acc
  | c :: rest, acc =>
    match digitVal radix c with
    | some d => parseDigits radix rest (acc * radix + d)
    | none => .error .intParse

/-- Rust `uN::from_str_radix` / `str::parse::<uN>` for an unsigned type of
`bound = 2 ^ N`: an optional leading `'+'`, then at least one digit in the
radix; a value reaching `bound` is an overflow error.  (Rust checks
overflow at each accumulation step; over `Nat` no wrap occurs, so checking
the final value against `bound` is equivalent.) -/
def parseUInt (radix bound : Nat) (s : List Char) : Except Err Nat :=
  let digits := match s with
    | '+' :: rest => rest
    | _ => s
  if digits.isEmpty then .error .intParse
  else
    match parseDigits radix digits 0 with
    | .error e => .error e
    | .ok v => if v < bound then .ok v else .error .intParse

/-- `enum DiskType` from `src/descriptor.rs`. -/
inductive DiskType where
  | monolithicSparse
  | vmfsSparse
  | monolithicFlat
  | vmfs
  | twoGbMaxExtentSparse
  | twoGbMaxExtentFlat
  | fullDevice
  | vmfsRaw
  | partitionedDevice
  | vmfsRawDeviceMap
  | vmfsPassthroughRawDeviceMap
  | streamOptimized
deriving DecidableEq

/-- `enum ExtentType` from `src/descriptor.rs`. -/
inductive ExtentType where
  | flat
  | sparse
  | zero
  | vmfs
  | vmfsSparse
  | vmfsRdm
  | vmfsRaw
deriving DecidableEq

/-- `DiskType::from_str`: only the quoted tag `"monolithicSparse"` (quote
characters included) is recognized; anything else is
`VmdkError::InvalidDisk`. -/
def DiskType.fromStr (s : List Char) : Except Err DiskType :=
  if s = str "\"monolithicSparse\"" then .ok .monolithicSparse
  else .error .invalidDisk

/-- `ExtentType::from_str`: only the unquoted tag `SPARSE` is recognized;
anything else is `VmdkError::InvalidDisk`. -/
def ExtentType.fromStr (s : List Char) : Except Err ExtentType :=
  if s = str "SPARSE" then .ok .sparse
  else .error .invalidDisk

/-- `impl Default for DiskType` from `src/descriptor.rs`. -/
def DiskType.default : DiskType := .monolithicSparse

/-- `struct ExtentDescriptor` from `src/descriptor.rs`: it records only the
extent type and the path token (the access-mode and sector-count tokens are
parsed but not stored). -/
structure ExtentDescriptor where
  extent_type : ExtentType
  path : List Char
deriving DecidableEq

/-- `items.get(i).ok_or_else(|| VmdkError::ParseError)?` on the token
vector of an extent-description line. -/
def getItem (items : List (List Char)) (i : Nat) : Except Err (List Char) :=
  match items.get? i with
  | some x => .ok x
  | none => .error .parseError

/-- `ExtentDescriptor::from_str` from `src/descriptor.rs`: split the line
on the single space character, require tokens 0–3 (access mode, u64 sector
count, extent type, path); `PathBuf::from_str` is infallible so the path
token is taken verbatim. -/
def ExtentDescriptor.fromStr (s : List Char) : Except Err ExtentDescriptor := do
  let items := rsplit (str " ") s
  let _perms ← getItem items 0
  let i1 ← getItem items 1
  let _sectors ← parseUInt 10 (2 ^ 64) i1
  let i2 ← getItem items 2
  let et ← ExtentType.fromStr i2
  let path ← getItem items 3
  Except.ok ⟨et, path⟩

/-- `struct Descriptor` from `src/descriptor.rs`. -/
structure Descriptor where
  version : Nat
  cid : Nat
  parent_cid : Option Nat
  create_type : DiskType
  extent_descriptors : List ExtentDescriptor
deriving DecidableEq

/-- `Descriptor::default()` (derived `Default`): zero integers, `None`
parent, default disk type, empty extent vector. -/
def Descriptor.default : Descriptor := ⟨0, 0, none, DiskType.default, []⟩

/-- The `match` on the raw `parentCID` value in `Descriptor::new`
(`CID_NOPARENT => None, c => Some(c)`). -/
def parentCidOfRaw (v : Nat) : Option Nat :=
  if v = CID_NOPARENT then none else some v

/-- One header-section line of `Descriptor::new`: the `version=` / `CID=` /
`parentCID=` / `createType=` prefix dispatch; unrecognized lines are
ignored. -/
def processHeaderLine (d : Descriptor) (line : List Char) : Except Err Descriptor :=
  if (str "version=").isPrefixOf line then
    match parseUInt 10 (2 ^ 32) (trimStartMatches (str "version=") line) with
    | .error e => .error e
    | .ok v => .ok ⟨v, d.cid, d.parent_cid, d.create_type, d.extent_descriptors⟩
  else if (str "CID=").isPrefixOf line then
    match parseUInt 16 (2 ^ 32) (trimStartMatches (str "CID=") line) with
    | .error e => .error e
    | .ok v => .ok ⟨d.version, v, d.parent_cid, d.create_type, d.extent_descriptors⟩
  else if (str "parentCID=").isPrefixOf line then
    match parseUInt 16 (2 ^ 32) (trimStartMatches (str "parentCID=") line) with
    | .error e => .error e
    | .ok v =>
        .ok ⟨d.version, d.cid, parentCidOfRaw v, d.create_type, d.extent_descriptors⟩
  else if (str "createType=").isPrefixOf line then
    match DiskType.fromStr (trimStartMatches (str "createType=") line) with
    | .error e => .error e
    | .ok t => .ok ⟨d.version, d.cid, d.parent_cid, t, d.extent_descriptors⟩
  else
    .ok d

/-- The `for line in chunk.split("\n")` loop over a header section. -/
def processHeaderLines (d : Descriptor) : List (List Char) → Except Err Descriptor
  | [] => .ok d
  | l :: ls =>
    match processHeaderLine d l with
    | .error e => .error e
    | .ok d' => processHeaderLines d' ls

/-- The loop over non-empty extent-description lines: each line is parsed
with `ExtentDescriptor::from_str` and pushed onto the vector. -/
def pushExtentLines (d : Descriptor) : List (List Char) → Except Err Descriptor
  | [] => .ok d
  | l :: ls =>
    match ExtentDescriptor.fromStr l with
    | .error e => .error e
    | .ok ed =>
        pushExtentLines
          ⟨d.version, d.cid, d.parent_cid, d.create_type, d.extent_descriptors ++ [ed]⟩ ls

/-- One chunk of `Descriptor::new`: dispatch on the three recognized section
labels; any other chunk runs the `panic` macro with the formatted message,
embedded here as the `Err.panicked` outcome (process abort, not a
recoverable error value). -/
def processChunk (d : Descriptor) (chunk : List Char) : Except Err Descriptor :=
  if (str "Disk DescriptorFile").isPrefixOf chunk then
    processHeaderLines d (rsplit (str "\n") chunk)
  else if (str "Extent description").isPrefixOf chunk then
    pushExtentLines d
      (((rsplit (str "\n") chunk).drop 1).filter (fun x => !x.isEmpty))
  else if (str "The disk Data Base").isPrefixOf chunk then
    .ok d
  else
    .error (.panicked (str "Unsupported chunk in descriptor file: " ++ chunk))

/-- The chunk loop of `Descriptor::new`. -/
def processChunks (d : Descriptor) : List (List Char) → Except Err Descriptor
  | [] => .ok d
  | c :: cs =>
    match processChunk d c with
    | .error e => .error e
    | .ok d' => processChunks d' cs

/-- `text.split("# ").filter(|x| x.len() != 0)`: the chunk list
`Descriptor::new` iterates over. -/
def chunksOf (text : List Char) : List (List Char) :=
  (rsplit (str "# ") text).filter (fun x => !x.isEmpty)

/-- `Descriptor::new` from `src/descriptor.rs`. -/
def Descriptor.new (text : List Char) : Except Err Descriptor :=
  processChunks Descriptor.default (chunksOf text)

/-- Is `b` a UTF-8 continuation byte (`0x80`–`0xBF`)? -/
def isCont (b : Nat) : Bool := 0x80 ≤ b && b ≤ 0xBF

/-- `std::str::from_utf8`: strict UTF-8 validation and decoding of a byte
list into characters.  Rejects continuation-byte leads, overlong forms,
surrogate encodings (lead `0xED` with second byte above `0x9F`) and code
points above `0x10FFFF` (lead above `0xF4`, or `0xF4` with second byte
above `0x8F`), exactly as Rust's validator does. -/
def utf8Decode : List Nat → Option (List Char)
  | [] => some []
  | b :: rest =>
    if b < 0x80 then
      (utf8Decode rest).map (fun cs => Char.ofNat b :: cs)
    else if b < 0xC2 then none
    else if b ≤ 0xDF then
      match rest with
      | b1 :: rest1 =>
        if isCont b1 then
          (utf8Decode rest1).map
            (fun cs => Char.ofNat ((b - 0xC0) * 0x40 + (b1 - 0x80)) :: cs)
        else none
      | [] => none
    else if b ≤ 0xEF then
      match rest with
      | b1 :: b2 :: rest2 =>
        if (if b = 0xE0 then 0xA0 ≤ b1 && b1 ≤ 0xBF
            else if b = 0xED then 0x80 ≤ b1 && b1 ≤ 0x9F
            else isCont b1) && isCont b2 then
          (utf8Decode rest2).map
            (fun cs =>
              Char.ofNat ((b - 0xE0) * 0x1000 + (b1 - 0x80) * 0x40 + (b2 - 0x80)) :: cs)
        else none
      | _ => none
    else if b ≤ 0xF4 then
      match rest with
      | b1 :: b2 :: b3 :: rest3 =>
        if (if b = 0xF0 then 0x90 ≤ b1 && b1 ≤ 0xBF
            else if b = 0xF4 then 0x80 ≤ b1 && b1 ≤ 0x8F
            else isCont b1) && isCont b2 && isCont b3 then
          (utf8Decode rest3).map
            (fun cs =>
              Char.ofNat
                ((b - 0xF0) * 0x40000 + (b1 - 0x80) * 0x1000 +
                  (b2 - 0x80) * 0x40 + (b3 - 0x80)) :: cs)
        else none
      | _ => none
    else none

/-- `descriptor.trim_matches(char::from(0))`: strip NUL characters from
both ends of the string (Rust `trim_matches` trims the front and the
back). -/
def trimNulMatches (s : List Char) : List Char :=
  ((s.dropWhile (fun c => c == Char.ofNat 0)).reverse.dropWhile
    (fun c => c == Char.ofNat 0)).reverse

/-- `extent_header.desc_size.0 * SECTOR_SIZE`: a `u64` multiplication, which
in a release build wraps modulo `2 ^ 64`. -/
def descSizeInBytes (descSize : Nat) : Nat :=
  (descSize * SECTOR_SIZE) % 2 ^ 64

/-- Bit width of `usize` on the modelled 64-bit platform. -/
def USIZE_BITS : Nat := 64

/-- `desc_size_in_bytes.try_into()?`: the `u64` → `usize` conversion, which
fails with `TryFromIntError` exactly when the value does not fit in
`usize`. -/
def tryIntoUsize (n : Nat) : Except Err Nat :=
  if n < 2 ^ USIZE_BITS then .ok n else .error .tryFromInt

/-- `struct Vmdk` from `src/lib.rs` (the `File` handle is not modelled). -/
structure Vmdk where
  extent_header : Option ExtentHeader
  descriptor : Option (List Char)
deriving DecidableEq

/-- `Vmdk::new` from `src/lib.rs`, over the file's byte contents: decode
the header from offset 0, then seek to the fixed byte offset 512 (the
source hardcodes `SeekFrom::Start(512)`; it does not use `desc_offset`),
read `desc_size.0 * SECTOR_SIZE` bytes (`u64` product, converted to
`usize`) with `read_exact`, decode them as UTF-8 and trim NUL characters
from both ends. -/
def Vmdk.new (file : List Nat) : Except Err Vmdk := do
  let hr ← ExtentHeader.new file
  let afterSeek := file.drop 512
  let n ← tryIntoUsize (descSizeInBytes hr.fst.desc_size.val)
  if afterSeek.length < n then Except.error Err.ioError else do
  let buf := afterSeek.take n
  match utf8Decode buf with
  | none => Except.error Err.utf8Error
  | some cs => Except.ok ⟨some hr.fst, some (trimNulMatches cs)⟩

/-- If `chunk` is recognized as a header section (`Disk DescriptorFile`),
none of its lines starts with `key`. -/
def ChunkOmits (chunk key : List Char) : Prop :=
  (str "Disk DescriptorFile").isPrefixOf chunk = true →
    ∀ line ∈ rsplit (str "\n") chunk, ¬ key.isPrefixOf line = true

instance (chunk key : List Char) : Decidable (ChunkOmits chunk key) := by
  unfold ChunkOmits
  infer_instance

/-- `text` has no line starting with `key` in any chunk recognized as a
header section (`Disk DescriptorFile`), over the exact chunk and line
structure `Descriptor::new` iterates: the formalization of "the descriptor
text's header section omits the key". -/
def NoHeaderKey (text key : List Char) : Prop :=
  ∀ chunk ∈ chunksOf text, ChunkOmits chunk key

instance (text key : List Char) : Decidable (NoHeaderKey text key) := by
  unfold NoHeaderKey
  infer_instance

/-- Worker for `specWhitespaceTokens`: cut at every whitespace character. -/
def wsTokensGo : List Char → List Char → List (List Char)
  | [], acc => [acc.reverse]
  | c :: rest, acc =>
    if c.isWhitespace then acc.reverse :: wsTokensGo rest []
    else wsTokensGo rest (c :: acc)

/-- Tokenization on whitespace as the specification's words describe it
("tokenizes on whitespace into exactly 4 fields"): maximal runs of
non-whitespace characters, i.e. Rust `str::split_whitespace`.  Defined from
the spec's words, for comparison with the source's `split(" ")`. -/
def specWhitespaceTokens (s : List Char) : List (List Char) :=
  (wsTokensGo s []).filter (fun t => !t.isEmpty)

/-- An extent file whose header names descriptor sector `desc_offset = 2`
(byte offset 1024) and `desc_size = 1`: magic and version, `desc_offset`
bytes 28–35 encoding 2, `desc_size` bytes 36–43 encoding 1, padding to the
first sector boundary, the text `AT512` at byte offset 512 and the text
`AT1024` at byte offset 1024 (each NUL-padded). -/
def c1File : List Nat :=
  [0x4b, 0x44, 0x4d, 0x56, 1, 0, 0, 0] ++ List.replicate 20 0 ++
    (2 :: List.replicate 7 0) ++ (1 :: List.replicate 7 0) ++
    List.replicate 34 0 ++ List.replicate 434 0 ++
    ([0x41, 0x54, 0x35, 0x31, 0x32] ++ List.replicate 507 0) ++
    [0x41, 0x54, 0x31, 0x30, 0x32, 0x34]

/-- The header `Vmdk::new` decodes from `c1File`. -/
def c1Hdr : ExtentHeader :=
  ⟨0x564d444b, 1, 0, ⟨0⟩, ⟨0⟩, ⟨2⟩, ⟨1⟩, 0, ⟨0⟩, ⟨0⟩, ⟨0⟩, 0, 0, 0, 0, 0⟩

/-- Descriptor text containing a section labeled `Unknown section`. -/
def c2Text : List Char := str "# Unknown section\nfoo"

/-- The exact descriptor text of the end-to-end scenario. -/
def c3Text : List Char :=
  str "# Disk DescriptorFile\nversion=1\nCID=def0d352\nparentCID=ffffffff\ncreateType=\"monolithicSparse\"\n\n# Extent description\nRW 41943040 SPARSE \"disk1.vmdk\"\n"

/-- A 78-byte header stream: valid magic and version, every later field
zero. -/
def c4wBytes : List Nat :=
  [0x4b, 0x44, 0x4d, 0x56, 1, 0, 0, 0] ++ List.replicate 70 0

/-- The header decoded from `c4wBytes`. -/
def c4wHdr : ExtentHeader :=
  ⟨0x564d444b, 1, 0, ⟨0⟩, ⟨0⟩, ⟨0⟩, ⟨0⟩, 0, ⟨0⟩, ⟨0⟩, ⟨0⟩, 0, 0, 0, 0, 0⟩

/-- A 512-byte extent file whose header field `desc_size` (bytes 36–43)
encodes `2 ^ 55` sectors, so that `desc_size * 512 = 2 ^ 64`. -/
def c9File : List Nat :=
  [0x4b, 0x44, 0x4d, 0x56, 1, 0, 0, 0] ++ List.replicate 28 0 ++
    [0, 0, 0, 0, 0, 0, 0x80, 0] ++ List.replicate 34 0 ++ List.replicate 434 0

/-- The descriptor the embedded parser produces from `c3Text`: note the
path token retains its surrounding quote characters, and the record has no
access-mode or sector-count fields at all. -/
def c3Desc : Descriptor :=
  ⟨1, 0xdef0d352, none, DiskType.monolithicSparse,
    [⟨ExtentType.sparse, str "\"disk1.vmdk\""⟩]⟩

/-- The header decoded from `c9File`: `desc_size` is `2 ^ 55` sectors. -/
def c9Hdr : ExtentHeader :=
  ⟨0x564d444b, 1, 0, ⟨0⟩, ⟨0⟩, ⟨0⟩, ⟨2 ^ 55⟩, 0, ⟨0⟩, ⟨0⟩, ⟨0⟩, 0, 0, 0, 0, 0⟩

/-- A descriptor text whose header section has no `version`, `CID` or
`createType` line. -/
def c10Text : List Char := str "# Disk DescriptorFile\nparentCID=00000010\n"

/-- The descriptor parsed from `c10Text`. -/
def c10Desc : Descriptor := ⟨0, 0, some 16, DiskType.monolithicSparse, []⟩

/-!
## Theorems

General lemmas about the embedded operations, followed by one theorem per
specification claim (with witnesses and counterexamples where required).
-/

set_option maxRecDepth 100000

/-- Inversion for a successful `Except` bind. -/
theorem bind_eq_ok {ε α β : Type} (x : Except ε α) (f : α → Except ε β) (b : β)
    (h : x >>= f = Except.ok b) : ∃ a, x = Except.ok a ∧ f a = Except.ok b := by
  cases x with
  | error e => exact absurd h (by simp [bind, Except.bind])
  | ok a => exact ⟨a, rfl, by simpa only [bind, Except.bind] using h⟩

/-- Inversion for a successful `readU`: the stream held at least `w` bytes,
the value is the little-endian reading of the first `w`, and exactly those
`w` bytes were consumed. -/
theorem readU_ok {w : Nat} {bs : List Nat} {p : Nat × List Nat}
    (h : readU w bs = .ok p) :
    w ≤ bs.length ∧ p = (leVal (bs.take w), bs.drop w) := by
  unfold readU at h
  split at h
  · exact ⟨by assumption, by injection h with h'; exact h'.symm⟩
  · cases h

/-- Claim C4: for every byte stream, the header decoder reads the fields in
exactly the order magic(32), version(32), flags(32), capacity(64),
grain_size(64), desc_offset(64), desc_size(64), gtes_per_gt(32),
rgd_offset(64), gd_offset(64), overhead(64), dirty_shutdown(8),
single_eol(8), non_eol(8), double_eol(8), compress_method(16) as
little-endian integers of those widths; on success each decoded value is
stored unchanged in the corresponding `ExtentHeader` field, and exactly the
first 78 bytes of the stream are consumed. -/
theorem extentHeader_decodes_fields_in_order (bs : List Nat)
    (hdr : ExtentHeader) (rest : List Nat)
    (h : ExtentHeader.new bs = .ok (hdr, rest)) :
    78 ≤ bs.length ∧ rest = bs.drop 78 ∧
      hdr.magic_number = leVal ((bs.drop 0).take 4) ∧
      hdr.version = leVal ((bs.drop 4).take 4) ∧
      hdr.flags = leVal ((bs.drop 8).take 4) ∧
      hdr.capacity = ⟨leVal ((bs.drop 12).take 8)⟩ ∧
      hdr.grain_size = ⟨leVal ((bs.drop 20).take 8)⟩ ∧
      hdr.desc_offset = ⟨leVal ((bs.drop 28).take 8)⟩ ∧
      hdr.desc_size = ⟨leVal ((bs.drop 36).take 8)⟩ ∧
      hdr.gtes_per_gt = leVal ((bs.drop 44).take 4) ∧
      hdr.rgd_offset = ⟨leVal ((bs.drop 48).take 8)⟩ ∧
      hdr.gd_offset = ⟨leVal ((bs.drop 56).take 8)⟩ ∧
      hdr.overhead = ⟨leVal ((bs.drop 64).take 8)⟩ ∧
      hdr.dirty_shutdown = leVal ((bs.drop 72).take 1) ∧
      hdr.single_eol_char = leVal ((bs.drop 73).take 1) ∧
      hdr.non_eol_char = leVal ((bs.drop 74).take 1) ∧
      hdr.dbl_eol_char = leVal ((bs.drop 75).take 1) ∧
      hdr.compress_method = leVal ((bs.drop 76).take 2) := by
  unfold ExtentHeader.new at h
  obtain ⟨p0, h0, h⟩ := bind_eq_ok _ _ _ h
  obtain ⟨hl0, hp0⟩ := readU_ok h0; subst hp0; dsimp only at h
  split at h
  · cases h
  obtain ⟨p1, h1, h⟩ := bind_eq_ok _ _ _ h
  obtain ⟨hl1, hp1⟩ := readU_ok h1; subst hp1; dsimp only at h
  split at h
  · cases h
  obtain ⟨p2, h2, h⟩ := bind_eq_ok _ _ _ h
  obtain ⟨hl2, hp2⟩ := readU_ok h2; subst hp2; dsimp only at h
  obtain ⟨p3, h3, h⟩ := bind_eq_ok _ _ _ h
  obtain ⟨hl3, hp3⟩ := readU_ok h3; subst hp3; dsimp only at h
  obtain ⟨p4, h4, h⟩ := bind_eq_ok _ _ _ h
  obtain ⟨hl4, hp4⟩ := readU_ok h4; subst hp4; dsimp only at h
  obtain ⟨p5, h5, h⟩ := bind_eq_ok _ _ _ h
  obtain ⟨hl5, hp5⟩ := readU_ok h5; subst hp5; dsimp only at h
  obtain ⟨p6, h6, h⟩ := bind_eq_ok _ _ _ h
  obtain ⟨hl6, hp6⟩ := readU_ok h6; subst hp6; dsimp only at h
  obtain ⟨p7, h7, h⟩ := bind_eq_ok _ _ _ h
  obtain ⟨hl7, hp7⟩ := readU_ok h7; subst hp7; dsimp only at h
  obtain ⟨p8, h8, h⟩ := bind_eq_ok _ _ _ h
  obtain ⟨hl8, hp8⟩ := readU_ok h8; subst hp8; dsimp only at h
  obtain ⟨p9, h9, h⟩ := bind_eq_ok _ _ _ h
  obtain ⟨hl9, hp9⟩ := readU_ok h9; subst hp9; dsimp only at h
  obtain ⟨p10, h10, h⟩ := bind_eq_ok _ _ _ h
  obtain ⟨hl10, hp10⟩ := readU_ok h10; subst hp10; dsimp only at h
  obtain ⟨p11, h11, h⟩ := bind_eq_ok _ _ _ h
  obtain ⟨hl11, hp11⟩ := readU_ok h11; subst hp11; dsimp only at h
  obtain ⟨p12, h12, h⟩ := bind_eq_ok _ _ _ h
  obtain ⟨hl12, hp12⟩ := readU_ok h12; subst hp12; dsimp only at h
  obtain ⟨p13, h13, h⟩ := bind_eq_ok _ _ _ h
  obtain ⟨hl13, hp13⟩ := readU_ok h13; subst hp13; dsimp only at h
  obtain ⟨p14, h14, h⟩ := bind_eq_ok _ _ _ h
  obtain ⟨hl14, hp14⟩ := readU_ok h14; subst hp14; dsimp only at h
  obtain ⟨p15, h15, h⟩ := bind_eq_ok _ _ _ h
  obtain ⟨hl15, hp15⟩ := readU_ok h15; subst hp15; dsimp only at h
  simp only [List.drop_drop, List.length_drop] at *
  injection h with h'
  obtain ⟨hh, hr⟩ := Prod.mk.injEq .. ▸ h'
  subst hh hr
  refine ⟨by omega, by norm_num, ?_⟩
  norm_num

/-- Witness for C4: a concrete 78-byte stream (valid magic and version,
zeros elsewhere) decodes successfully with every field at its little-endian
reading and nothing left unconsumed. -/
theorem extentHeader_decodes_fields_in_order_witness :
    78 ≤ c4wBytes.length ∧ ([] : List Nat) = c4wBytes.drop 78 ∧
      c4wHdr.magic_number = leVal ((c4wBytes.drop 0).take 4) ∧
      c4wHdr.version = leVal ((c4wBytes.drop 4).take 4) ∧
      c4wHdr.flags = leVal ((c4wBytes.drop 8).take 4) ∧
      c4wHdr.capacity = ⟨leVal ((c4wBytes.drop 12).take 8)⟩ ∧
      c4wHdr.grain_size = ⟨leVal ((c4wBytes.drop 20).take 8)⟩ ∧
      c4wHdr.desc_offset = ⟨leVal ((c4wBytes.drop 28).take 8)⟩ ∧
      c4wHdr.desc_size = ⟨leVal ((c4wBytes.drop 36).take 8)⟩ ∧
      c4wHdr.gtes_per_gt = leVal ((c4wBytes.drop 44).take 4) ∧
      c4wHdr.rgd_offset = ⟨leVal ((c4wBytes.drop 48).take 8)⟩ ∧
      c4wHdr.gd_offset = ⟨leVal ((c4wBytes.drop 56).take 8)⟩ ∧
      c4wHdr.overhead = ⟨leVal ((c4wBytes.drop 64).take 8)⟩ ∧
      c4wHdr.dirty_shutdown = leVal ((c4wBytes.drop 72).take 1) ∧
      c4wHdr.single_eol_char = leVal ((c4wBytes.drop 73).take 1) ∧
      c4wHdr.non_eol_char = leVal ((c4wBytes.drop 74).take 1) ∧
      c4wHdr.dbl_eol_char = leVal ((c4wBytes.drop 75).take 1) ∧
      c4wHdr.compress_method = leVal ((c4wBytes.drop 76).take 2) :=
  extentHeader_decodes_fields_in_order c4wBytes c4wHdr [] (by decide)

/-- Claim C5: if the first 4 bytes of the stream, read little-endian, are
not the container signature `0x564d444b`, header decoding fails with the
parse error (the spec's `FormatMismatch`), and the outcome is already
determined by those first 4 bytes alone — decoding the 4-byte prefix gives
the same failure, so no later field is read. -/
theorem extentHeader_bad_magic_fails (bs : List Nat) (h4 : 4 ≤ bs.length)
    (hm : leVal (bs.take 4) ≠ 0x564d444b) :
    ExtentHeader.new bs = .error .parseError ∧
      ExtentHeader.new (bs.take 4) = .error .parseError := by
  have key : ∀ cs : List Nat, 4 ≤ cs.length → leVal (cs.take 4) ≠ 0x564d444b →
      ExtentHeader.new cs = .error .parseError := by
    intro cs hlen hmm
    unfold ExtentHeader.new
    have hr : readU 4 cs = .ok (leVal (cs.take 4), cs.drop 4) := by
      unfold readU
      rw [if_pos hlen]
    rw [hr]
    simp only [bind, Except.bind]
    rw [if_pos ]
    exact hmm
  refine ⟨key bs h4 hm, key (bs.take 4) ?_ ?_⟩
  · simp only [List.length_take]
    omega
  · rw [List.take_take]
    simpa using hm

/-- Witness for C5: the all-zero 4-byte stream is rejected with the parse
error, reading nothing past the magic. -/
theorem extentHeader_bad_magic_fails_witness :
    ExtentHeader.new [0, 0, 0, 0] = .error .parseError ∧
      ExtentHeader.new (([0, 0, 0, 0] : List Nat).take 4) = .error .parseError :=
  extentHeader_bad_magic_fails [0, 0, 0, 0] (by decide) (by decide)

/-- Claim C1, evaluated at the failing input: `c1File`'s header decodes
with `desc_offset = 2` (so the claimed seek target is byte `2 * 512 =
1024`, where the file holds the text `AT1024`), yet descriptor extraction
returns the text stored at the fixed byte offset 512 — the source seeks to
the hardcoded `SeekFrom::Start(512)` and never uses `desc_offset`. -/
theorem vmdk_extraction_ignores_desc_offset :
    Vmdk.new c1File = .ok ⟨some c1Hdr, some (str "AT512")⟩ ∧
      c1Hdr.desc_offset = ⟨2⟩ ∧ c1Hdr.desc_size = ⟨1⟩ ∧
      utf8Decode ((c1File.drop (2 * SECTOR_SIZE)).take 6) =
        some (str "AT1024") := by
  decide

/-- Claim C2, evaluated at the failing input: on a descriptor text with a
section labeled `Unknown section`, `Descriptor::new` does not return a
recoverable error value — it runs the `panic` macro (process abort),
embedded here as the `Err.panicked` outcome with the formatted message. -/
theorem descriptor_unknown_section_panics :
    Descriptor.new c2Text =
      .error (.panicked
        (str "Unsupported chunk in descriptor file: Unknown section\nfoo")) := by
  decide

/-- Counterexample to C3: parsing the scenario text does not yield an
extent descriptor whose path is `disk1.vmdk` without the surrounding quote
characters. -/
theorem descriptor_scenario_path_not_unquoted :
    Except.map (fun d => d.extent_descriptors.map ExtentDescriptor.path)
      (Descriptor.new c3Text) ≠ .ok [str "disk1.vmdk"] := by
  decide

/-- Claim C3 as amended: parsing the exact scenario text succeeds with
version 1, cid `0xdef0d352`, no parent cid, create type
`MonolithicSparse`, and exactly one extent descriptor — which records only
the extent type `Sparse` and the path token `"disk1.vmdk"` with its quote
characters retained (the access-mode and sector-count tokens are parsed for
validation but not stored). -/
theorem descriptor_scenario_parses :
    Descriptor.new c3Text = .ok c3Desc ∧
      c3Desc.version = 1 ∧ c3Desc.cid = 0xdef0d352 ∧
      c3Desc.parent_cid = none ∧
      c3Desc.create_type = DiskType.monolithicSparse ∧
      c3Desc.extent_descriptors =
        [⟨ExtentType.sparse, str "\"disk1.vmdk\""⟩] := by
  decide

/-- Counterexample to C9: with `desc_size = 2 ^ 55` sectors the
sector-to-byte product is `2 ^ 64`, which exceeds the 64-bit platform's
addressable range — yet descriptor extraction does not fail with a range
error: the `u64` product wraps to 0 and `Vmdk::new` succeeds, reading a
zero-byte descriptor. -/
theorem vmdk_desc_size_overflow_wraps :
    Vmdk.new c9File = .ok ⟨some c9Hdr, some []⟩ ∧
      c9Hdr.desc_size = ⟨2 ^ 55⟩ ∧ 2 ^ 64 ≤ 2 ^ 55 * SECTOR_SIZE := by
  refine ⟨by decide, by decide, by norm_num [SECTOR_SIZE]⟩

/-- Claim C9 as amended: the sector-to-byte multiplication is a wrapping
`u64` product, and only the conversion of the wrapped value to `usize` is
checked — on the 64-bit platform that check always succeeds, so a product
of `2 ^ 64` or more wraps modulo `2 ^ 64` and is used as the byte count
instead of signalling an overflow error. -/
theorem descSize_conversion_never_fails (d : Nat) :
    tryIntoUsize (descSizeInBytes d) = .ok ((d * SECTOR_SIZE) % 2 ^ 64) := by
  unfold tryIntoUsize descSizeInBytes USIZE_BITS
  exact if_pos (Nat.mod_lt _ (by norm_num))

/-- A successful bind is the continuation of its successful first step. -/
theorem exBind_ok {ε α β : Type} (a : α) (f : α → Except ε β) :
    (Except.ok a >>= f) = f a := rfl

/-- A failed first step short-circuits the bind. -/
theorem exBind_err {ε α β : Type} (e : ε) (f : α → Except ε β) :
    (Except.error e >>= f) = Except.error e := rfl

/-- Claim C6: for a header-section line carrying the `parentCID=` key whose
raw value parses as the 32-bit value `v`, the parsed `parent_cid` is `none`
exactly when `v` is the all-ones sentinel `0xffffffff`, and is `some v` for
every other value. -/
theorem parentCid_none_iff_sentinel (d : Descriptor) (line : List Char) (v : Nat)
    (hpre : (str "parentCID=").isPrefixOf line = true)
    (hv : parseUInt 16 (2 ^ 32) (trimStartMatches (str "parentCID=") line) = .ok v) :
    (Except.map Descriptor.parent_cid (processHeaderLine d line) = .ok none ↔
        v = 0xffffffff) ∧
      (v ≠ 0xffffffff →
        Except.map Descriptor.parent_cid (processHeaderLine d line) = .ok (some v)) := by
  obtain ⟨t, ht⟩ := List.isPrefixOf_iff_prefix.mp hpre
  have hline : line = 'p' :: (str "arentCID=" ++ t) := by
    rw [← ht]
    rfl
  subst hline
  have hv1 : (str "version=").isPrefixOf ('p' :: (str "arentCID=" ++ t)) = false := rfl
  have hc1 : (str "CID=").isPrefixOf ('p' :: (str "arentCID=" ++ t)) = false := rfl
  unfold processHeaderLine
  rw [hv1, hc1, hpre]
  simp only [Bool.false_eq_true, if_false, if_true, hv]
  unfold parentCidOfRaw CID_NOPARENT
  split
  next h =>
    exact ⟨⟨fun _ => h, fun _ => rfl⟩, fun hne => absurd h hne⟩
  next h =>
    refine ⟨⟨fun hmapped => ?_, fun hveq => absurd hveq h⟩, fun _ => rfl⟩
    injection hmapped with h'
    exact Option.noConfusion h'

/-- Witness for C6: the line `parentCID=ffffffff` parses to the sentinel
and yields `parent_cid = none`. -/
theorem parentCid_none_iff_sentinel_witness :
    (Except.map Descriptor.parent_cid
        (processHeaderLine Descriptor.default (str "parentCID=ffffffff")) = .ok none ↔
      (0xffffffff : Nat) = 0xffffffff) ∧
      ((0xffffffff : Nat) ≠ 0xffffffff →
        Except.map Descriptor.parent_cid
          (processHeaderLine Descriptor.default (str "parentCID=ffffffff")) =
            .ok (some 0xffffffff)) :=
  parentCid_none_iff_sentinel Descriptor.default (str "parentCID=ffffffff")
    0xffffffff (by decide) (by decide)

/-- Counterexample to C7: the line `" 1 SPARSE x"` (leading space)
tokenizes on whitespace into only 3 tokens, yet `ExtentDescriptor::from_str`
succeeds — the empty first item produced by `split(" ")` is accepted as the
access-mode token — so a descriptor is produced from a line with a missing
field rather than a field-parse error. -/
theorem extentDescriptor_three_tokens_parses :
    (specWhitespaceTokens (str " 1 SPARSE x")).length = 3 ∧
      ExtentDescriptor.fromStr (str " 1 SPARSE x") =
        .ok ⟨ExtentType.sparse, str "x"⟩ := by
  decide

/-- Claim C7 as amended: for every non-empty line that `split(" ")` (the
source splits on the single space character, keeping empty items) cuts into
fewer than 4 items, parsing fails with an error and no `ExtentDescriptor`
is produced. -/
theorem extentDescriptor_few_items_fails (s : List Char) (_hs : s ≠ [])
    (hlen : (rsplit (str " ") s).length < 4) :
    ∃ e, ExtentDescriptor.fromStr s = .error e := by
  have h3 : getItem (rsplit (str " ") s) 3 = .error .parseError := by
    unfold getItem
    have hn : (rsplit (str " ") s).get? 3 = none := by
      rw [List.get?_eq_none]
      omega
    rw [hn]
  unfold ExtentDescriptor.fromStr
  cases h0 : getItem (rsplit (str " ") s) 0 with
  | error e => exact ⟨e, by simp only [h0, exBind_err]⟩
  | ok t0 =>
    cases h1 : getItem (rsplit (str " ") s) 1 with
    | error e => exact ⟨e, by simp only [h0, h1, exBind_ok, exBind_err]⟩
    | ok t1 =>
      cases hp : parseUInt 10 (2 ^ 64) t1 with
      | error e => exact ⟨e, by simp only [h0, h1, hp, exBind_ok, exBind_err]⟩
      | ok n =>
        cases h2 : getItem (rsplit (str " ") s) 2 with
        | error e => exact ⟨e, by simp only [h0, h1, hp, h2, exBind_ok, exBind_err]⟩
        | ok t2 =>
          cases he : ExtentType.fromStr t2 with
          | error e =>
              exact ⟨e, by simp only [h0, h1, hp, h2, he, exBind_ok, exBind_err]⟩
          | ok et =>
              exact ⟨.parseError,
                by simp only [h0, h1, hp, h2, he, h3, exBind_ok, exBind_err]⟩

/-- Witness for C7 (amended): the 2-item line `RW 123` fails. -/
theorem extentDescriptor_few_items_fails_witness :
    ∃ e, ExtentDescriptor.fromStr (str "RW 123") = .error e :=
  extentDescriptor_few_items_fails (str "RW 123") (by decide) (by decide)

/-- Counterexample to C8: two distinct unmatched tags, fed to either
enumeration, produce the very same payload-free error value
`VmdkError::InvalidDisk` — the error carries neither the raw tag text nor
the target enumeration's name, since distinct tags and distinct
enumerations are indistinguishable in it. -/
theorem invalid_tag_error_carries_nothing :
    ExtentType.fromStr (str "FLAT") = ExtentType.fromStr (str "ZERO") ∧
      ExtentType.fromStr (str "FLAT") = .error Err.invalidDisk ∧
      DiskType.fromStr (str "FLAT") = .error Err.invalidDisk := by
  decide

/-- Claim C8 as amended: any tag other than the quoted
`"monolithicSparse"` (for `DiskType`) or the unquoted `SPARSE` (for
`ExtentType`) — no case-folding, no partial matches — fails with the
payload-free error `InvalidDisk`, which names neither the raw text nor the
enumeration. -/
theorem unmatched_tag_invalid_enum :
    (∀ s : List Char, s ≠ str "SPARSE" →
        ExtentType.fromStr s = .error .invalidDisk) ∧
      (∀ s : List Char, s ≠ str "\"monolithicSparse\"" →
        DiskType.fromStr s = .error .invalidDisk) := by
  constructor
  · intro s hs
    unfold ExtentType.fromStr
    rw [if_neg hs]
  · intro s hs
    unfold DiskType.fromStr
    rw [if_neg hs]

/-- Witness for C8 (amended): the tag `FLAT` is rejected by both
enumerations with `InvalidDisk`. -/
theorem unmatched_tag_invalid_enum_witness :
    ExtentType.fromStr (str "FLAT") = .error .invalidDisk ∧
      DiskType.fromStr (str "FLAT") = .error .invalidDisk :=
  ⟨unmatched_tag_invalid_enum.1 (str "FLAT") (by decide),
    unmatched_tag_invalid_enum.2 (str "FLAT") (by decide)⟩

/-- A successful `processHeaderLine` leaves every field whose key the line
does not start with unchanged. -/
theorem processHeaderLine_preserves (d : Descriptor) (line : List Char)
    (d' : Descriptor) (h : processHeaderLine d line = .ok d') :
    (¬ (str "version=").isPrefixOf line = true → d'.version = d.version) ∧
      (¬ (str "CID=").isPrefixOf line = true → d'.cid = d.cid) ∧
      (¬ (str "createType=").isPrefixOf line = true →
        d'.create_type = d.create_type) := by
  unfold processHeaderLine at h
  split at h
  next hcond =>
    split at h
    · cases h
    · injection h with h'
      subst h'
      exact ⟨fun hc => absurd hcond hc, fun _ => rfl, fun _ => rfl⟩
  next =>
    split at h
    next hcond2 =>
      split at h
      · cases h
      · injection h with h'
        subst h'
        exact ⟨fun _ => rfl, fun hc => absurd hcond2 hc, fun _ => rfl⟩
    next =>
      split at h
      next =>
        split at h
        · cases h
        · injection h with h'
          subst h'
          exact ⟨fun _ => rfl, fun _ => rfl, fun _ => rfl⟩
      next =>
        split at h
        next hcond4 =>
          split at h
          · cases h
          · injection h with h'
            subst h'
            exact ⟨fun _ => rfl, fun _ => rfl, fun hc => absurd hcond4 hc⟩
        next =>
          injection h with h'
          subst h'
          exact ⟨fun _ => rfl, fun _ => rfl, fun _ => rfl⟩

/-- Folding `processHeaderLine` over lines none of which starts with a
given key leaves that key's field unchanged. -/
theorem processHeaderLines_preserves (lines : List (List Char)) :
    ∀ d d' : Descriptor, processHeaderLines d lines = .ok d' →
      ((∀ l ∈ lines, ¬ (str "version=").isPrefixOf l = true) →
          d'.version = d.version) ∧
        ((∀ l ∈ lines, ¬ (str "CID=").isPrefixOf l = true) → d'.cid = d.cid) ∧
        ((∀ l ∈ lines, ¬ (str "createType=").isPrefixOf l = true) →
          d'.create_type = d.create_type) := by
  induction lines with
  | nil =>
    intro d d' h
    injection h with h'
    subst h'
    exact ⟨fun _ => rfl, fun _ => rfl, fun _ => rfl⟩
  | cons l ls ih =>
    intro d d' h
    unfold processHeaderLines at h
    split at h
    · cases h
    next dmid heq =>
      obtain ⟨pv, pc, pt⟩ := processHeaderLine_preserves d l dmid heq
      obtain ⟨qv, qc, qt⟩ := ih dmid d' h
      refine ⟨fun hall => ?_, fun hall => ?_, fun hall => ?_⟩
      · rw [qv fun x hx => hall x (List.mem_cons_of_mem _ hx),
          pv (hall l (List.mem_cons_self _ _))]
      · rw [qc fun x hx => hall x (List.mem_cons_of_mem _ hx),
          pc (hall l (List.mem_cons_self _ _))]
      · rw [qt fun x hx => hall x (List.mem_cons_of_mem _ hx),
          pt (hall l (List.mem_cons_self _ _))]

/-- Pushing extent descriptors never changes the version, cid or create
type. -/
theorem pushExtentLines_preserves (lines : List (List Char)) :
    ∀ d d' : Descriptor, pushExtentLines d lines = .ok d' →
      d'.version = d.version ∧ d'.cid = d.cid ∧
        d'.create_type = d.create_type := by
  induction lines with
  | nil =>
    intro d d' h
    injection h with h'
    subst h'
    exact ⟨rfl, rfl, rfl⟩
  | cons l ls ih =>
    intro d d' h
    unfold pushExtentLines at h
    split at h
    · cases h
    next ed heq =>
      obtain ⟨a, b, c⟩ := ih _ _ h
      exact ⟨a, b, c⟩

/-- A successful `processChunk` leaves a field unchanged whenever the chunk,
if it is a header section, has no line starting with that field's key. -/
theorem processChunk_preserves (d : Descriptor) (chunk : List Char)
    (d' : Descriptor) (h : processChunk d chunk = .ok d') :
    (ChunkOmits chunk (str "version=") → d'.version = d.version) ∧
      (ChunkOmits chunk (str "CID=") → d'.cid = d.cid) ∧
      (ChunkOmits chunk (str "createType=") →
        d'.create_type = d.create_type) := by
  unfold processChunk at h
  split at h
  next hhdr =>
    obtain ⟨pv, pc, pt⟩ := processHeaderLines_preserves _ _ _ h
    exact ⟨fun ho => pv (ho hhdr), fun ho => pc (ho hhdr), fun ho => pt (ho hhdr)⟩
  next =>
    split at h
    next =>
      obtain ⟨a, b, c⟩ := pushExtentLines_preserves _ _ _ h
      exact ⟨fun _ => a, fun _ => b, fun _ => c⟩
    next =>
      split at h
      next =>
        injection h with h'
        subst h'
        exact ⟨fun _ => rfl, fun _ => rfl, fun _ => rfl⟩
      next =>
        cases h

/-- The chunk fold preserves a field when every chunk omits its key. -/
theorem processChunks_preserves (chunks : List (List Char)) :
    ∀ d d' : Descriptor, processChunks d chunks = .ok d' →
      ((∀ c ∈ chunks, ChunkOmits c (str "version=")) →
          d'.version = d.version) ∧
        ((∀ c ∈ chunks, ChunkOmits c (str "CID=")) → d'.cid = d.cid) ∧
        ((∀ c ∈ chunks, ChunkOmits c (str "createType=")) →
          d'.create_type = d.create_type) := by
  induction chunks with
  | nil =>
    intro d d' h
    injection h with h'
    subst h'
    exact ⟨fun _ => rfl, fun _ => rfl, fun _ => rfl⟩
  | cons c cs ih =>
    intro d d' h
    unfold processChunks at h
    split at h
    · cases h
    next dmid heq =>
      obtain ⟨pv, pc, pt⟩ := processChunk_preserves d c dmid heq
      obtain ⟨qv, qc, qt⟩ := ih dmid d' h
      refine ⟨fun hall => ?_, fun hall => ?_, fun hall => ?_⟩
      · rw [qv fun x hx => hall x (List.mem_cons_of_mem _ hx),
          pv (hall c (List.mem_cons_self _ _))]
      · rw [qc fun x hx => hall x (List.mem_cons_of_mem _ hx),
          pc (hall c (List.mem_cons_self _ _))]
      · rw [qt fun x hx => hall x (List.mem_cons_of_mem _ hx),
          pt (hall c (List.mem_cons_self _ _))]

/-- Claim C10: when `Descriptor::new` succeeds on a text whose header
section has no `version=` (resp. `CID=`, `createType=`) line, the missing
field silently keeps its `Descriptor::default()` value — version 0, cid 0,
create type `MonolithicSparse` — and the omission is never reported as an
error. -/
theorem descriptor_missing_keys_default (text : List Char) (d : Descriptor)
    (hok : Descriptor.new text = .ok d) :
    (NoHeaderKey text (str "version=") → d.version = 0) ∧
      (NoHeaderKey text (str "CID=") → d.cid = 0) ∧
      (NoHeaderKey text (str "createType=") →
        d.create_type = DiskType.monolithicSparse) := by
  unfold Descriptor.new at hok
  obtain ⟨qv, qc, qt⟩ :=
    processChunks_preserves (chunksOf text) Descriptor.default d hok
  exact ⟨fun hn => qv hn, fun hn => qc hn, fun hn => qt hn⟩

/-- Witness for C10: a text whose header section has only a `parentCID`
line parses successfully with version 0, cid 0 and the default disk
type. -/
theorem descriptor_missing_keys_default_witness :
    Descriptor.new c10Text = .ok c10Desc ∧ c10Desc.version = 0 ∧
      c10Desc.cid = 0 ∧ c10Desc.create_type = DiskType.monolithicSparse :=
  have hok : Descriptor.new c10Text = .ok c10Desc := by decide
  have h := descriptor_missing_keys_default c10Text c10Desc hok
  ⟨hok, h.1 (by decide), h.2.1 (by decide), h.2.2 (by decide)⟩
